import Mathlib

/-!
Verification of the `MultiServerMCPClient` session supervisor
(`src/client.ts` of `langchainjs-mcp-adapters`) against its natural-language
specification.

The TypeScript class is shallowly embedded as pure Lean functions:

* the JS `Map<string, _>` fields of the class are modelled as insertion-ordered
  association lists (`Map.set` replaces the value of an existing key in place,
  otherwise appends; `Map.delete` removes; iteration follows insertion order);
* the external world (process spawn, `client.connect`, `loadMcpTools`) is an
  oracle assigning each connection attempt an outcome: the connect step throws,
  the tool-discovery step throws, or the attempt succeeds with a tool list;
* a thrown `MCPClientError` is modelled as an `Option MCPError` / `Except`
  result paired with the state at the moment of the throw (JS exceptions do not
  roll back prior mutations);
* raw JSON configuration descriptors are modelled by the `JValue` type and the
  Node environment by `Env := String → Option String`.
-/

namespace MCP

/-- A discovered tool; lookup identity is its name
(`StructuredToolInterface` in the source). -/
structure Tool where
  name : String
deriving DecidableEq, Repr

/-- The `restart` (stdio) / `reconnect` (SSE) sub-configuration of a
connection.  The two anonymous object types in `StdioConnection.restart` and
`SSEConnection.reconnect` are structurally identical. `maxAttempts` and
`delayMs` hold arbitrary JS numbers, modelled as integers. -/
structure RestartSettings where
  enabled : Bool
  maxAttempts : Option Int := none
  delayMs : Option Int := none
deriving DecidableEq, Repr

/-- Validated stdio connection (`StdioConnection` in the source; the constant
`transport: "stdio"` discriminator is carried by the `Connection` variant). -/
structure StdioConnection where
  command : String
  args : List String
  env : Option (List (String × String)) := none
  encoding : Option String := none
  encodingErrorHandler : Option String := none
  restart : Option RestartSettings := none
deriving DecidableEq, Repr

/-- Validated SSE connection (`SSEConnection` in the source). -/
structure SSEConnection where
  url : String
  headers : Option (List (String × String)) := none
  useNodeEventSource : Option Bool := none
  reconnect : Option RestartSettings := none
deriving DecidableEq, Repr

/-- `Connection = StdioConnection | SSEConnection`. -/
inductive Connection where
  | stdio (cfg : StdioConnection)
  | sse (cfg : SSEConnection)
deriving DecidableEq, Repr

/-- `MCPClientError`: a message plus an optional `serverName` tag (the second
constructor argument in the source, which many throw sites omit). -/
structure MCPError where
  message : String
  serverName : Option String := none
deriving DecidableEq, Repr

/-- One entry of the `cleanupFunctions` ledger: the closure closes the captured
transport of server `server`; `ok` is the outcome the close will have when the
ledger is run (external behaviour, baked into the model of the closure). -/
structure CleanupEntry where
  server : String
  ok : Bool
deriving DecidableEq, Repr

/-- The mutable fields of `MultiServerMCPClient`.  `clients` and
`transportInstances` are maps whose values (protocol client / transport
handles) are opaque to every claim, so only their insertion-ordered key lists
are kept. -/
structure ClientState where
  clients : List String
  serverNameToTools : List (String × List Tool)
  cleanupFunctions : List CleanupEntry
  transportInstances : List String
deriving DecidableEq, Repr

/-- A fresh `MultiServerMCPClient` before any initialization. -/
def emptyState : ClientState := ⟨[], [], [], []⟩

/-- `Map.has` on a key list. -/
def hasName : List String → String → Bool
  | [], _ => false
  | x :: xs, k => if x = k then true else hasName xs k

/-- `Map.set` on a key list with opaque values: an existing key keeps its
position, a new key is appended. -/
def setName (l : List String) (k : String) : List String :=
  if hasName l k then l else l ++ [k]

/-- `Map.delete` on a key list. -/
def delName : List String → String → List String
  | [], _ => []
  | x :: xs, k => if x = k then delName xs k else x :: delName xs k

/-- `Map.get` on the tool map. -/
def mapGet : List (String × List Tool) → String → Option (List Tool)
  | [], _ => none
  | p :: ps, k => if p.1 = k then some p.2 else mapGet ps k

/-- `Map.set` on the tool map: replace in place, else append. -/
def mapSet : List (String × List Tool) → String → List Tool → List (String × List Tool)
  | [], k, v => [(k, v)]
  | p :: ps, k, v => if p.1 = k then (k, v) :: ps else p :: mapSet ps k v

/-- `Map.delete` on the tool map. -/
def mapDel : List (String × List Tool) → String → List (String × List Tool)
  | [], _ => []
  | p :: ps, k => if p.1 = k then mapDel ps k else p :: mapDel ps k

/-- External outcome of one connection attempt for one server: `client.connect`
throws, `loadMcpTools` throws, or the attempt fully succeeds discovering
`tools`. -/
inductive AttemptOutcome where
  | connectFail
  | discoverFail
  | ok (tools : List Tool)
deriving DecidableEq, Repr

/-- `initializeStdioConnection` (client.ts:663-715).  State mutations happen in
source order: the transport is stored before connecting; on connect failure an
`MCPClientError` tagged with the server name is thrown; otherwise the client is
stored, a cleanup closure is appended, and `loadToolsForServer` either throws
(an error whose message names the server but whose `serverName` field is
omitted, client.ts:972-974) or records the discovered tools. -/
def initializeStdioConnection (serverName : String) (outcome : AttemptOutcome)
    (s : ClientState) : ClientState × Option MCPError :=
  let s1 : ClientState := { s with transportInstances := setName s.transportInstances serverName }
  match outcome with
  | .connectFail =>
      (s1, some { message := "Failed to connect to stdio server \"" ++ serverName ++ "\"",
                  serverName := some serverName })
  | .discoverFail =>
      let s2 := { s1 with clients := setName s1.clients serverName }
      let s3 := { s2 with cleanupFunctions := s2.cleanupFunctions ++ [CleanupEntry.mk serverName true] }
      (s3, some { message := "Failed to load tools from server \"" ++ serverName ++ "\"",
                  serverName := none })
  | .ok tools =>
      let s2 := { s1 with clients := setName s1.clients serverName }
      let s3 := { s2 with cleanupFunctions := s2.cleanupFunctions ++ [CleanupEntry.mk serverName true] }
      ({ s3 with serverNameToTools := mapSet s3.serverNameToTools serverName tools }, none)

/-- `initializeSSEConnection` (client.ts:751-808).  Same mutation sequence as
the stdio path, but the whole body sits in an outer `try` whose `catch` wraps
any error as `Failed to create SSE transport ...` tagged with the server
name. -/
def initializeSSEConnection (serverName : String) (outcome : AttemptOutcome)
    (s : ClientState) : ClientState × Option MCPError :=
  let s1 : ClientState := { s with transportInstances := setName s.transportInstances serverName }
  match outcome with
  | .connectFail =>
      (s1, some { message := "Failed to create SSE transport for server \"" ++ serverName ++
                    "\": Failed to connect to SSE server", serverName := some serverName })
  | .discoverFail =>
      let s2 := { s1 with clients := setName s1.clients serverName }
      let s3 := { s2 with cleanupFunctions := s2.cleanupFunctions ++ [CleanupEntry.mk serverName true] }
      (s3, some { message := "Failed to create SSE transport for server \"" ++ serverName ++
                    "\": Failed to load tools", serverName := some serverName })
  | .ok tools =>
      let s2 := { s1 with clients := setName s1.clients serverName }
      let s3 := { s2 with cleanupFunctions := s2.cleanupFunctions ++ [CleanupEntry.mk serverName true] }
      ({ s3 with serverNameToTools := mapSet s3.serverNameToTools serverName tools }, none)

/-- Dispatch on the `transport` discriminator, as done both in
`initializeConnections` and in `attemptReconnect`. -/
def initializeConnection (serverName : String) (conn : Connection)
    (outcome : AttemptOutcome) (s : ClientState) : ClientState × Option MCPError :=
  match conn with
  | .stdio _ => initializeStdioConnection serverName outcome s
  | .sse _ => initializeSSEConnection serverName outcome s

/-- `initializeConnections` (client.ts:631-658): servers are processed
sequentially in configuration order; the first thrown error propagates,
aborting the remaining entries.  The oracle fixes each server's attempt
outcome. -/
def initializeConnections (oracle : String → AttemptOutcome) :
    List (String × Connection) → ClientState → ClientState × Option MCPError
  | [], s => (s, none)
  | (serverName, conn) :: rest, s =>
      let res := initializeConnection serverName conn (oracle serverName) s
      match res.2 with
      | some e => (res.1, some e)
      | none => initializeConnections oracle rest res.1

/-- `cleanupServerResources` (client.ts:1049-1053). -/
def cleanupServerResources (serverName : String) (s : ClientState) : ClientState :=
  { s with clients := delName s.clients serverName,
           serverNameToTools := mapDel s.serverNameToTools serverName,
           transportInstances := delName s.transportInstances serverName }

/-- Result of `attemptReconnect`: the loop's final state, how many attempts
were made, whether a reconnect succeeded, the (defaulted) delay used between
attempts, and, for each attempt that was started, the state at the start of
that loop iteration. -/
structure ReconnectResult where
  state : ClientState
  attempts : Nat
  connected : Bool
  delayUsed : Int
  trace : List ClientState
deriving DecidableEq, Repr

/-- Intermediate result of the `while` loop of `attemptReconnect`. -/
structure LoopResult where
  state : ClientState
  attempts : Nat
  connected : Bool
  trace : List ClientState
deriving DecidableEq, Repr

/-- The `while` loop of `attemptReconnect` (client.ts:999-1037).  The source
condition is `!connected && (maxAttempts === undefined || attempts <
maxAttempts)`; because the parameter default `maxAttempts = 3` replaces
`undefined` at entry, the first disjunct is unreachable and the loop runs while
`attempts < maxAttempts`, i.e. for at most `maxAttempts - attempts` further
iterations, which `remaining` counts.  A thrown error from the initialize call
is caught inside the loop and the loop continues; on a non-throwing call the
loop stops when `clients.has(serverName)`. -/
def reconnectLoop (serverName : String) (conn : Connection)
    (oracle : Nat → AttemptOutcome) :
    Nat → Nat → ClientState → LoopResult
  | 0, attempts, s => ⟨s, attempts, false, []⟩
  | remaining + 1, attempts, s =>
      let a := attempts + 1
      let res := initializeConnection serverName conn (oracle a) s
      match res.2 with
      | some _ =>
          -- catch: the error is logged and the loop continues
          let r := reconnectLoop serverName conn oracle remaining a res.1
          ⟨r.state, r.attempts, r.connected, s :: r.trace⟩
      | none =>
          if hasName res.1.clients serverName then ⟨res.1, a, true, [s]⟩
          else
            let r := reconnectLoop serverName conn oracle remaining a res.1
            ⟨r.state, r.attempts, r.connected, s :: r.trace⟩

/-- `attemptReconnect` (client.ts:987-1044).  The declaration
`maxAttempts = 3, delayMs = 1000` gives both parameters JS defaults: a caller
passing `undefined` (an absent policy field) gets `3` / `1000`.  Cleanup of the
server's previous resources runs unconditionally before the loop. -/
def attemptReconnect (serverName : String) (conn : Connection)
    (maxAttemptsArg delayMsArg : Option Int) (oracle : Nat → AttemptOutcome)
    (s : ClientState) : ReconnectResult :=
  let maxAttempts : Int := maxAttemptsArg.getD 3
  let delayMs : Int := delayMsArg.getD 1000
  let s0 := cleanupServerResources serverName s
  let r := reconnectLoop serverName conn oracle maxAttempts.toNat 0 s0
  ⟨r.state, r.attempts, r.connected, delayMs, r.trace⟩

/-- The `onclose` handler installed by `setupStdioRestart` (client.ts:720-746):
if the server is still in the client map, call `attemptReconnect` with the
policy's `maxAttempts` and `delayMs`; otherwise do nothing (`none`). -/
def stdioOnClose (serverName : String) (cfg : StdioConnection)
    (restart : RestartSettings) (oracle : Nat → AttemptOutcome)
    (s : ClientState) : Option ReconnectResult :=
  if hasName s.clients serverName then
    some (attemptReconnect serverName (.stdio cfg) restart.maxAttempts restart.delayMs oracle s)
  else none

/-- The `onclose` handler installed by `setupSSEReconnect`
(client.ts:929-955). -/
def sseOnClose (serverName : String) (cfg : SSEConnection)
    (reconnect : RestartSettings) (oracle : Nat → AttemptOutcome)
    (s : ClientState) : Option ReconnectResult :=
  if hasName s.clients serverName then
    some (attemptReconnect serverName (.sse cfg) reconnect.maxAttempts reconnect.delayMs oracle s)
  else none

/-- `getAllToolsAsFlatArray` (client.ts:1074-1080): push every server's tools
in map iteration order. -/
def getAllToolsAsFlatArray (m : List (String × List Tool)) : List Tool :=
  m.foldl (fun acc p => acc ++ p.2) []

/-- `getToolsFromServers` (client.ts:1088-1099): push the named servers' tools
in the order the names are given; names without an entry contribute nothing. -/
def getToolsFromServers (m : List (String × List Tool)) (serverNames : List String) : List Tool :=
  serverNames.foldl
    (fun acc n =>
      match mapGet m n with
      | some tools => acc ++ tools
      | none => acc) []

/-- `getTools` (client.ts:1062-1067): `!servers || servers.length === 0` takes
the all-servers path. -/
def getTools (m : List (String × List Tool)) (servers : Option (List String)) : List Tool :=
  match servers with
  | none => getAllToolsAsFlatArray m
  | some ss => if ss.length = 0 then getAllToolsAsFlatArray m else getToolsFromServers m ss

/-- The `for` loop of `close` (client.ts:1117-1123): each cleanup action is
invoked in ledger order; an action that throws is caught and logged and the
loop continues.  The returned list records each invocation and its outcome. -/
def runCleanups : List CleanupEntry → List (String × Bool)
  | [] => []
  | c :: rest => (c.server, c.ok) :: runCleanups rest

/-- `close` (client.ts:1114-1131): run the cleanup ledger, then clear the
ledger and all three maps. -/
def close (s : ClientState) : ClientState × List (String × Bool) :=
  let results := runCleanups s.cleanupFunctions
  ({ clients := [], serverNameToTools := [], cleanupFunctions := [], transportInstances := [] },
   results)

/-! ### Raw JSON values -/

mutual
/-- A raw JSON value, as produced by `JSON.parse` on a configuration file or
passed inline to the constructor.  Numbers are modelled as integers. -/
inductive JValue where
  | str (s : String)
  | num (n : Int)
  | bool (b : Bool)
  | null
  | arr (items : JItems)
  | obj (fields : JFields)

/-- The fields of a JSON object, in order. -/
inductive JFields where
  | nil
  | cons (key : String) (value : JValue) (rest : JFields)

/-- The elements of a JSON array, in order. -/
inductive JItems where
  | nil
  | cons (value : JValue) (rest : JItems)
end

/-- First binding of a key among an object's fields. -/
def jFieldsGet : JFields → String → Option JValue
  | .nil, _ => none
  | .cons k v rest, key => if k = key then some v else jFieldsGet rest key

/-- JS property access `v[key]`: `undefined` (`none`) unless `v` is an object
with that field. -/
def jGet : JValue → String → Option JValue
  | .obj fields, key => jFieldsGet fields key
  | _, _ => none

/-- JS `key in v`. -/
def jHas (v : JValue) (key : String) : Bool := (jGet v key).isSome

/-- JS truthiness of a value. -/
def truthy : JValue → Bool
  | .str s => s != ""
  | .num n => n != 0
  | .bool b => b
  | .null => false
  | .arr _ => true
  | .obj _ => true

/-- JS `typeof v === "object" && v !== null` (arrays included). -/
def jIsObjectNonNull : JValue → Bool
  | .obj _ => true
  | .arr _ => true
  | _ => false

/-- The Node environment, `process.env`. -/
abbrev Env := String → Option String

/-- Truthiness of `process.env[n]` (an unset variable is `undefined`, an empty
value is falsy). -/
def envTruthy (env : Env) (n : String) : Bool :=
  match env n with
  | some v => v != ""
  | none => false

/-- `value.startsWith("${") && value.endsWith("}")` on the character list. -/
def looksLikePlaceholder (s : String) : Bool :=
  (s.data.take 2 == ['$', '\x7b']) && (s.data.getLast? == some '\x7d')

/-- `value.slice(2, -1)`: the `NAME` of a `${NAME}` placeholder. -/
def placeholderName (s : String) : String :=
  String.mk ((s.data.drop 2).dropLast)

/-- The replacement applied to a placeholder-shaped string: the environment
value when it is truthy, otherwise the string is left untouched
(`if (envValue) obj[key] = envValue`). -/
def substIfTruthy (env : Env) (s : String) : String :=
  match env (placeholderName s) with
  | some v => if v != "" then v else s
  | none => s

/-! ### Environment-variable interpolation (client.ts:186-243) -/

mutual
/-- `processEnvVarsRecursively` over the entries of an object: each entry's
value is rewritten according to its key. -/
def processFields (env : Env) : JFields → JFields
  | .nil => .nil
  | .cons k v rest => .cons k (processEntry env k v) (processFields env rest)

/-- One entry of the recursive pass: a placeholder-shaped string is replaced
when the variable is set non-empty (no warning either way); an object or array
value is recursed into unless its key is `"env"` (that subtree was already
handled by the one-pass env interpolation). -/
def processEntry (env : Env) (k : String) : JValue → JValue
  | .str s => if looksLikePlaceholder s then .str (substIfTruthy env s) else .str s
  | .obj fields => if k = "env" then .obj fields else .obj (processFields env fields)
  | .arr items => if k = "env" then .arr items else .arr (processItems env items)
  | v => v

/-- Array elements are enumerated by `Object.entries` under their numeric
index keys, which are never `"env"`. -/
def processItems (env : Env) : JItems → JItems
  | .nil => .nil
  | .cons v rest => .cons (processItemValue env v) (processItems env rest)

def processItemValue (env : Env) : JValue → JValue
  | .str s => if looksLikePlaceholder s then .str (substIfTruthy env s) else .str s
  | .obj fields => .obj (processFields env fields)
  | .arr items => .arr (processItems env items)
  | v => v
end

/-- `processEnvVarsRecursively` itself (client.ts:223-243): a no-op on
non-objects. -/
def processEnvVarsRecursively (env : Env) : JValue → JValue
  | .obj fields => .obj (processFields env fields)
  | .arr items => .arr (processItems env items)
  | v => v

/-- The one-pass interpolation of the `env` map (client.ts:193-211): only
string-valued entries of placeholder shape are touched; a truthy environment
value replaces the entry, otherwise the placeholder is kept and a warning
`(variable, server)` is recorded. -/
def envPassFields (env : Env) (serverName : String) :
    JFields → JFields × List (String × String)
  | .nil => (.nil, [])
  | .cons k v rest =>
      let hd : JValue × List (String × String) :=
        match v with
        | .str s =>
            if looksLikePlaceholder s then
              if envTruthy env (placeholderName s) then (.str (substIfTruthy env s), [])
              else (.str s, [(placeholderName s, serverName)])
            else (.str s, [])
        | w => (w, [])
      let tl := envPassFields env serverName rest
      (.cons k hd.1 tl.1, hd.2 ++ tl.2)

/-- The env pass over an array-shaped `env` value (`Object.entries` of an
array enumerates its elements). -/
def envPassItems (env : Env) (serverName : String) :
    JItems → JItems × List (String × String)
  | .nil => (.nil, [])
  | .cons v rest =>
      let hd : JValue × List (String × String) :=
        match v with
        | .str s =>
            if looksLikePlaceholder s then
              if envTruthy env (placeholderName s) then (.str (substIfTruthy env s), [])
              else (.str s, [(placeholderName s, serverName)])
            else (.str s, [])
        | w => (w, [])
      let tl := envPassItems env serverName rest
      (.cons hd.1 tl.1, hd.2 ++ tl.2)

/-- `if (config.env && typeof config.env === "object")`: the env pass applies
only to truthy object-typed `env` values; anything else is skipped. -/
def envPassValue (env : Env) (serverName : String) : JValue → JValue × List (String × String)
  | .obj fields =>
      let r := envPassFields env serverName fields
      (.obj r.1, r.2)
  | .arr items =>
      let r := envPassItems env serverName items
      (.arr r.1, r.2)
  | v => (v, [])

/-- Apply the env pass to the `env` field of a server's config object.  (JSON
objects have unique keys, so rewriting each `"env"` binding coincides with the
source's single `config.env` access.) -/
def envPassConfigFields (env : Env) (serverName : String) :
    JFields → JFields × List (String × String)
  | .nil => (.nil, [])
  | .cons k v rest =>
      if k = "env" then
        let r := envPassValue env serverName v
        let tl := envPassConfigFields env serverName rest
        (.cons k r.1 tl.1, r.2 ++ tl.2)
      else
        let tl := envPassConfigFields env serverName rest
        (.cons k v tl.1, tl.2)

/-- The body of the `processEnvVarsInConfig` loop for one server
(client.ts:189-215): skip non-objects, interpolate the `env` map first, then
run the recursive pass over the whole config (which skips `env` keys). -/
def processServerEnvVars (env : Env) (serverName : String) :
    JValue → JValue × List (String × String)
  | .obj fields =>
      let r := envPassConfigFields env serverName fields
      (.obj (processFields env r.1), r.2)
  | .arr items => (.arr (processItems env items), [])
  | v => (v, [])

/-- `value.transport === "stdio"`, the filter `loadConfigFromFile` applies
before interpolation (client.ts:169-175). -/
def isTransportStdio (config : JValue) : Bool :=
  match jGet config "transport" with
  | some (.str s) => s == "stdio"
  | _ => false

/-- What `loadConfigFromFile` does to one server's raw descriptor: only
descriptors whose `transport` field is literally `"stdio"` are interpolated;
all others pass through untouched. -/
def fileEnvEntry (env : Env) (serverName : String) (config : JValue) :
    JValue × List (String × String) :=
  if isTransportStdio config then processServerEnvVars env serverName config
  else (config, [])

/-- The interpolation step of `loadConfigFromFile` over the whole `servers`
object, with the warnings it logs. -/
def loadConfigEnvPass (env : Env) :
    List (String × JValue) → List (String × JValue) × List (String × String)
  | [] => ([], [])
  | (serverName, config) :: rest =>
      let hd := fileEnvEntry env serverName config
      let tl := loadConfigEnvPass env rest
      ((serverName, hd.1) :: tl.1, hd.2 ++ tl.2)

/-- Descend through object fields along a path of keys. -/
def jPathGet : JValue → List String → Option JValue
  | v, [] => some v
  | v, k :: ks =>
      match jGet v k with
      | some w => jPathGet w ks
      | none => none

/-! ### Configuration validation (client.ts:251-589) -/

/-- The `protocol` of a parsed URL.  Modelled interface of the platform WHATWG
`URL` constructor, restricted to the only field `processSSEConfig` inspects:
parsing succeeds when the input starts with a scheme (an ASCII letter followed
by letters, digits, `+`, `-`, `.`) and a colon; `protocol` is the lowercased
scheme with the trailing colon. -/
structure ParsedURL where
  protocol : String
deriving DecidableEq, Repr

/-- JS `String.prototype.startsWith`. -/
def strStartsWith (s p : String) : Bool :=
  p.data.isPrefixOf s.data

def isSchemeChar (c : Char) : Bool := c.isAlphanum || c == '+' || c == '-' || c == '.'

/-- See `ParsedURL`. -/
def parseURL (s : String) : Option ParsedURL :=
  match s.data.span (fun c => c != ':') with
  | (c :: cs, ':' :: _) =>
      if c.isAlpha && cs.all isSchemeChar then
        some ⟨String.mk (((c :: cs).map Char.toLower) ++ [':'])⟩
      else none
  | _ => none

/-- All-strings check and extraction for an array (`args`). -/
def jItemsStrings : JItems → Option (List String)
  | .nil => some []
  | .cons (.str s) rest => (jItemsStrings rest).map (s :: ·)
  | .cons _ _ => none

/-- All-strings check and extraction for an object (`env` / `headers`). -/
def jFieldsStrings : JFields → Option (List (String × String))
  | .nil => some []
  | .cons k (.str s) rest => (jFieldsStrings rest).map ((k, s) :: ·)
  | .cons _ _ _ => none

/-- Validation of a `restart` / `reconnect` sub-object (client.ts:408-453 and
540-586, which are duplicates up to the field name `what`): a falsy value is
skipped; a truthy non-object throws; `enabled` must be boolean if present and
is materialized via `Boolean(...)`; `maxAttempts` / `delayMs` must be numbers
if present.  (A truthy array is `typeof "object"` and has none of the named
fields, yielding `enabled := false`.) -/
def parseRetrySettings (what : String) (serverName : String) (v : Option JValue) :
    Except MCPError (Option RestartSettings) :=
  match v with
  | none => .ok none
  | some r =>
      if truthy r then
        match r with
        | .obj rf => do
            let enabled ← match jFieldsGet rf "enabled" with
              | none => Except.ok false
              | some (.bool b) => Except.ok b
              | some _ => Except.error ⟨"Invalid " ++ what ++ ".enabled for server \"" ++
                  serverName ++ " - must be a boolean", none⟩
            let ma ← match jFieldsGet rf "maxAttempts" with
              | none => Except.ok none
              | some (.num n) => Except.ok (some n)
              | some _ => Except.error ⟨"Invalid " ++ what ++ ".maxAttempts for server \"" ++
                  serverName ++ " - must be a number", none⟩
            let dm ← match jFieldsGet rf "delayMs" with
              | none => Except.ok none
              | some (.num n) => Except.ok (some n)
              | some _ => Except.error ⟨"Invalid " ++ what ++ ".delayMs for server \"" ++
                  serverName ++ " - must be a number", none⟩
            Except.ok (some ⟨enabled, ma, dm⟩)
        | .arr _ => .ok (some ⟨false, none, none⟩)
        | _ => .error ⟨"Invalid " ++ what ++ " for server \"" ++ serverName ++
            " - must be an object", none⟩
      else .ok none

/-- `processStdioConfig` (client.ts:314-456), field checks in source order. -/
def processStdioConfig (serverName : String) (config : JValue) :
    Except MCPError StdioConnection := do
  let command ← match jGet config "command" with
    | some (.str c) =>
        if c != "" then Except.ok c
        else Except.error (⟨"Missing or invalid command for server \"" ++ serverName ++ "\"",
          none⟩ : MCPError)
    | _ => Except.error ⟨"Missing or invalid command for server \"" ++ serverName ++ "\"", none⟩
  let args ← match jGet config "args" with
    | none => Except.ok []
    | some (.arr items) =>
        match jItemsStrings items with
        | some l => Except.ok l
        | none => Except.error (⟨"Invalid args for server \"" ++ serverName ++
            " - must be an array of strings", none⟩ : MCPError)
    | some _ => Except.error ⟨"Invalid args for server \"" ++ serverName ++
        " - must be an array of strings", none⟩
  let envMap ← match jGet config "env" with
    | none => Except.ok none
    | some v =>
        if truthy v then
          match v with
          | .obj fields =>
              match jFieldsStrings fields with
              | some m => Except.ok (some m)
              | none => Except.error (⟨"Invalid env for server \"" ++ serverName ++
                  " - must be an object of key-value pairs with string values", none⟩ : MCPError)
          | .arr _ => Except.error ⟨"Invalid env for server \"" ++ serverName ++
              " - must be an object of key-value pairs", none⟩
          | _ => Except.error ⟨"Invalid env for server \"" ++ serverName ++
              " - must be an object of key-value pairs", none⟩
        else Except.ok none
  let encoding ← match jGet config "encoding" with
    | none => Except.ok none
    | some (.str e) => Except.ok (some e)
    | some _ => Except.error ⟨"Invalid encoding for server \"" ++ serverName ++
        " - must be a string", none⟩
  let handler ← match jGet config "encodingErrorHandler" with
    | none => Except.ok none
    | some (.str h) =>
        if h == "strict" || h == "ignore" || h == "replace" then Except.ok (some h)
        else Except.error (⟨"Invalid encodingErrorHandler for server \"" ++ serverName ++
          " - must be one of: strict, ignore, replace", none⟩ : MCPError)
    | some _ => Except.error ⟨"Invalid encodingErrorHandler for server \"" ++ serverName ++
        " - must be one of: strict, ignore, replace", none⟩
  let restart ← parseRetrySettings "restart" serverName (jGet config "restart")
  Except.ok { command := command, args := args, env := envMap, encoding := encoding,
              encodingErrorHandler := handler, restart := restart }

/-- `processSSEConfig` (client.ts:461-589).  The `new URL` / protocol check
sits in a `try` whose own `catch` replaces either failure (unparseable URL or
the thrown non-HTTP error) with the same `must be a valid URL` error. -/
def processSSEConfig (serverName : String) (config : JValue) :
    Except MCPError SSEConnection := do
  let url ← match jGet config "url" with
    | some (.str u) =>
        if u != "" then Except.ok u
        else Except.error (⟨"Missing or invalid url for server \"" ++ serverName ++ "\"",
          none⟩ : MCPError)
    | _ => Except.error ⟨"Missing or invalid url for server \"" ++ serverName ++ "\"", none⟩
  let _ ← match parseURL url with
    | none => Except.error (⟨"Invalid url for server \"" ++ serverName ++
        " - must be a valid URL", none⟩ : MCPError)
    | some pu =>
        if strStartsWith pu.protocol "http" then Except.ok ()
        else Except.error ⟨"Invalid url for server \"" ++ serverName ++
          " - must be a valid URL", none⟩
  let _ ← match jGet config "transport" with
    | some (.str t) =>
        if t == "sse" then Except.ok ()
        else Except.error (⟨"Invalid transport for server \"" ++ serverName ++
          " - must be sse", none⟩ : MCPError)
    | _ => Except.error ⟨"Invalid transport for server \"" ++ serverName ++
        " - must be sse", none⟩
  let headers ← match jGet config "headers" with
    | none => Except.ok none
    | some v =>
        if truthy v then
          match v with
          | .obj fields =>
              match jFieldsStrings fields with
              | some m => Except.ok (some m)
              | none => Except.error (⟨"Invalid headers for server \"" ++ serverName ++
                  " - must be an object of key-value pairs with string values", none⟩ : MCPError)
          | .arr _ => Except.error ⟨"Invalid headers for server \"" ++ serverName ++
              " - must be an object of key-value pairs", none⟩
          | _ => Except.error ⟨"Invalid headers for server \"" ++ serverName ++
              " - must be an object", none⟩
        else Except.ok none
  let useNode ← match jGet config "useNodeEventSource" with
    | none => Except.ok none
    | some (.bool b) => Except.ok (some b)
    | some _ => Except.error ⟨"Invalid useNodeEventSource for server \"" ++ serverName ++
        " - must be a boolean", none⟩
  let reconnect ← parseRetrySettings "reconnect" serverName (jGet config "reconnect")
  Except.ok { url := url, headers := headers, useNodeEventSource := useNode,
              reconnect := reconnect }

/-- `isStdioConnection` (client.ts:284-294): transport absent or `"stdio"`,
`command` present, `args` absent or an array. -/
def isStdioConnection (config : JValue) : Bool :=
  jIsObjectNonNull config &&
  (match jGet config "transport" with
   | none => true
   | some (.str s) => s == "stdio"
   | some _ => false) &&
  jHas config "command" &&
  (match jGet config "args" with
   | none => true
   | some (.arr _) => true
   | some _ => false)

/-- `isSSEConnection` (client.ts:299-309): transport literally `"sse"` and a
string `url`. -/
def isSSEConnection (config : JValue) : Bool :=
  jIsObjectNonNull config &&
  (match jGet config "transport" with
   | some (.str t) => t == "sse"
   | _ => false) &&
  (match jGet config "url" with
   | some (.str _) => true
   | _ => false)

/-- `processConnections` (client.ts:251-279): non-object configs are skipped
with a warning; the first validation error thrown by a per-server processor
(or an unsupported shape) aborts the whole call. -/
def processConnections : List (String × JValue) → Except MCPError (List (String × Connection))
  | [] => .ok []
  | (serverName, config) :: rest =>
      if jIsObjectNonNull config then
        if isStdioConnection config then
          match processStdioConfig serverName config with
          | .error e => .error e
          | .ok c =>
              match processConnections rest with
              | .error e => .error e
              | .ok others => .ok ((serverName, .stdio c) :: others)
        else if isSSEConnection config then
          match processSSEConfig serverName config with
          | .error e => .error e
          | .ok c =>
              match processConnections rest with
              | .error e => .error e
              | .ok others => .ok ((serverName, .sse c) :: others)
        else
          .error ⟨"Server \"" ++ serverName ++
            "\" has invalid or unsupported configuration. Skipping.", none⟩
      else
        processConnections rest

/-! ### Sample data used by concrete witnesses and counterexamples -/

def sampleStdioConn : StdioConnection := { command := "node", args := [] }

def sampleSSEConn : SSEConnection := { url := "https://example.com/mcp" }

def oracleConnectFail : Nat → AttemptOutcome := fun _ => .connectFail

/-- A client state in which server `"fs"` is live. -/
def stateA : ClientState := ⟨["fs"], [("fs", [⟨"read"⟩])], [⟨"fs", true⟩], ["fs"]⟩

def sampleToolMap : List (String × List Tool) := [("a", [⟨"t1"⟩]), ("b", [⟨"t2"⟩, ⟨"t3"⟩])]

/-- The error carries the server's name: either in the `serverName` tag of
`MCPClientError` or inside its message (every throw site of the source
interpolates the server name into the message, but some omit the tag). -/
def mentions (e : MCPError) (serverName : String) : Prop :=
  e.serverName = some serverName ∨ serverName.data <:+: e.message.data

def toolA : Tool := ⟨"alpha"⟩

def connA : Connection := .stdio { command := "node", args := ["a.js"] }

def connB : Connection := .stdio { command := "node", args := ["b.js"] }

def connC : Connection := .sse { url := "https://example.com/c" }

/-- Oracle for the C5 witness: server `"a"` connects and discovers `toolA`,
every other server's connect throws. -/
def oracleAB : String → AttemptOutcome := fun n => if n = "a" then .ok [toolA] else .connectFail

/-- An SSE descriptor whose url has the non-HTTP(S) scheme `httpx`, which the
`protocol.startsWith("http")` check nevertheless accepts. -/
def cfgHttpx : JValue :=
  .obj (.cons "transport" (.str "sse") (.cons "url" (.str "httpx://host") .nil))

/-- The spec's own example of a non-HTTP url. -/
def cfgFtp : JValue :=
  .obj (.cons "transport" (.str "sse") (.cons "url" (.str "ftp://host") .nil))

/-- A stdio descriptor with no explicit `transport` field and an `env` entry
holding a placeholder. -/
def cfgNoTransport : JValue :=
  .obj (.cons "command" (.str "node")
    (.cons "env" (.obj (.cons "K" (.str "$\x7bFOO\x7d") .nil)) .nil))

/-- The same descriptor with `transport: "stdio"` spelled out. -/
def cfgStdioEnv : JValue :=
  .obj (.cons "transport" (.str "stdio") (.cons "command" (.str "node")
    (.cons "env" (.obj (.cons "K" (.str "$\x7bFOO\x7d") .nil)) .nil)))

/-- An environment with `FOO` set to `"x"`. -/
def envFOO : Env := fun n => if n = "FOO" then some "x" else none

/-- An environment with no variables set. -/
def envEmptyVars : Env := fun _ => none

/-! ### Basic lemmas about the map operations -/

theorem hasName_append (l1 l2 : List String) (k : String) :
    hasName (l1 ++ l2) k = (hasName l1 k || hasName l2 k) := by
  induction l1 with
  | nil => simp [hasName]
  | cons x xs ih =>
      simp only [List.cons_append, hasName]
      split <;> simp [ih]

theorem hasName_setName_self (l : List String) (k : String) :
    hasName (setName l k) k = true := by
  unfold setName
  split
  · assumption
  · simp [hasName_append, hasName]

theorem hasName_setName_of_hasName {l : List String} {m : String} (k : String)
    (h : hasName l m = true) : hasName (setName l k) m = true := by
  unfold setName
  split
  · exact h
  · simp [hasName_append, h]

theorem hasName_setName_other {m k : String} (l : List String) (h : m ≠ k) :
    hasName (setName l k) m = hasName l m := by
  have h' : k ≠ m := Ne.symm h
  unfold setName
  split
  · rfl
  · simp [hasName_append, hasName, h']

theorem hasName_delName_self (l : List String) (k : String) :
    hasName (delName l k) k = false := by
  induction l with
  | nil => simp [delName, hasName]
  | cons x xs ih =>
      by_cases hx : x = k
      · simp [delName, hx, ih]
      · simp [delName, hasName, hx, ih, Ne.symm hx]

theorem hasName_delName_other {m k : String} (l : List String) (h : m ≠ k) :
    hasName (delName l k) m = hasName l m := by
  have h' : k ≠ m := Ne.symm h
  induction l with
  | nil => simp [delName]
  | cons x xs ih =>
      by_cases hx : x = k
      · subst hx
        simp [delName, hasName, h', ih]
      · by_cases hm : x = m
        · subst hm; simp [delName, hasName, hx, ih]
        · simp [delName, hasName, hx, hm, ih]

theorem mapGet_mapSet_self (m : List (String × List Tool)) (k : String) (v : List Tool) :
    mapGet (mapSet m k v) k = some v := by
  induction m with
  | nil => simp [mapSet, mapGet]
  | cons p ps ih =>
      by_cases hp : p.1 = k
      · simp [mapSet, mapGet, hp]
      · simp [mapSet, mapGet, hp, ih]

theorem mapGet_mapSet_other {n k : String} (m : List (String × List Tool)) (v : List Tool)
    (h : n ≠ k) : mapGet (mapSet m k v) n = mapGet m n := by
  have h' : k ≠ n := Ne.symm h
  induction m with
  | nil => simp [mapSet, mapGet, h']
  | cons p ps ih =>
      by_cases hp : p.1 = k
      · simp [mapSet, mapGet, hp, h', ih]
      · by_cases hn : p.1 = n
        · simp [mapSet, mapGet, hp, hn, h, h', ih]
        · simp [mapSet, mapGet, hp, hn, ih]

theorem mapGet_mapDel_self (m : List (String × List Tool)) (k : String) :
    mapGet (mapDel m k) k = none := by
  induction m with
  | nil => simp [mapDel, mapGet]
  | cons p ps ih =>
      by_cases hp : p.1 = k
      · simp [mapDel, hp, ih]
      · simp [mapDel, mapGet, hp, ih]

theorem mapGet_mapDel_other {n k : String} (m : List (String × List Tool)) (h : n ≠ k) :
    mapGet (mapDel m k) n = mapGet m n := by
  have h' : k ≠ n := Ne.symm h
  induction m with
  | nil => simp [mapDel]
  | cons p ps ih =>
      by_cases hp : p.1 = k
      · simp [mapDel, mapGet, hp, h', ih]
      · by_cases hn : p.1 = n <;> simp [mapDel, mapGet, hp, hn, h, ih]

theorem mapGet_isSome_mapSet {n : String} (m : List (String × List Tool)) (k : String)
    (v : List Tool) (h : (mapGet m n).isSome = true) :
    (mapGet (mapSet m k v) n).isSome = true := by
  by_cases hk : n = k
  · subst hk; simp [mapGet_mapSet_self]
  · rw [mapGet_mapSet_other m v hk]; exact h

/-! ### Flattening lemmas for the tool registry -/

theorem foldl_flat_tools (l : List (String × List Tool)) (acc : List Tool) :
    l.foldl (fun a p => a ++ p.2) acc = acc ++ (l.map Prod.snd).flatten := by
  induction l generalizing acc with
  | nil => simp
  | cons p ps ih => simp [ih, List.append_assoc]

theorem foldl_filter_tools (m : List (String × List Tool)) (names : List String)
    (acc : List Tool) :
    (names.foldl
      (fun a n =>
        match mapGet m n with
        | some tools => a ++ tools
        | none => a) acc) = acc ++ (names.map (fun n => (mapGet m n).getD [])).flatten := by
  induction names generalizing acc with
  | nil => simp
  | cons n ns ih =>
      cases h : mapGet m n <;> simp [h, ih, List.append_assoc]

theorem getAllToolsAsFlatArray_eq (m : List (String × List Tool)) :
    getAllToolsAsFlatArray m = (m.map Prod.snd).flatten := by
  simp [getAllToolsAsFlatArray, foldl_flat_tools]

theorem getToolsFromServers_eq (m : List (String × List Tool)) (names : List String) :
    getToolsFromServers m names = (names.map (fun n => (mapGet m n).getD [])).flatten := by
  simp [getToolsFromServers, foldl_filter_tools]

theorem runCleanups_eq_map (l : List CleanupEntry) :
    runCleanups l = l.map (fun c => (c.server, c.ok)) := by
  induction l with
  | nil => rfl
  | cons c cs ih => simp [runCleanups, ih]

/-! ### C1 -/

/-- C1: the claim says a restart policy with `maxAttempts` absent retries
without limit.  Evaluating the code at such a policy refutes this: with
`maxAttempts` absent (passed as `undefined` by `setupStdioRestart`), the
parameter default `maxAttempts = 3` of `attemptReconnect` applies, so with
every attempt failing the loop gives up after exactly 3 attempts.  (The
`maxAttempts === undefined` disjunct of the `while` condition, which would give
the specified unlimited behaviour, is unreachable because the default has
already replaced `undefined`.) -/
theorem claim1_absent_maxAttempts_gives_up_after_three :
    (attemptReconnect "fs" (.stdio sampleStdioConn) none none oracleConnectFail stateA).attempts
      = 3 ∧
    (attemptReconnect "fs" (.stdio sampleStdioConn) none none oracleConnectFail stateA).connected
      = false := by
  exact ⟨rfl, rfl⟩

/-! ### C6 -/

/-- C6 (amended): when a restart/reconnect policy omits `delayMs`, the delay
between reconnect attempts defaults to 1000 ms for both the stdio and the SSE
transport (both `onclose` handlers call `attemptReconnect`, whose single
parameter default `delayMs = 1000` applies; no 3000 ms default exists). -/
theorem claim6_default_delay_is_1000_for_both_transports (serverName : String)
    (scfg : StdioConnection) (ecfg : SSEConnection) (e1 e2 : Bool) (ma1 ma2 : Option Int)
    (o1 o2 : Nat → AttemptOutcome) (s1 s2 : ClientState) (r1 r2 : ReconnectResult)
    (h1 : stdioOnClose serverName scfg ⟨e1, ma1, none⟩ o1 s1 = some r1)
    (h2 : sseOnClose serverName ecfg ⟨e2, ma2, none⟩ o2 s2 = some r2) :
    r1.delayUsed = 1000 ∧ r2.delayUsed = 1000 := by
  unfold stdioOnClose at h1
  unfold sseOnClose at h2
  split at h1
  · split at h2
    · injection h1 with h1'
      injection h2 with h2'
      subst h1'; subst h2'
      exact ⟨rfl, rfl⟩
    · exact absurd h2 (by simp)
  · exact absurd h1 (by simp)

/-- Witness for C6 (amended) at a concrete live state and concrete policies
omitting `delayMs`. -/
theorem claim6_default_delay_witness :
    (attemptReconnect "fs" (.stdio sampleStdioConn) none none oracleConnectFail
        stateA).delayUsed = 1000 ∧
    (attemptReconnect "fs" (.sse sampleSSEConn) none none oracleConnectFail
        stateA).delayUsed = 1000 :=
  claim6_default_delay_is_1000_for_both_transports "fs" sampleStdioConn sampleSSEConn
    true true none none oracleConnectFail oracleConnectFail stateA stateA _ _ rfl rfl

/-- Counterexample for C6 as stated: for an SSE server whose reconnect policy
omits `delayMs`, the delay actually used is 1000 ms, not the claimed
3000 ms. -/
theorem claim6_counterexample :
    (sseOnClose "fs" sampleSSEConn ⟨true, none, none⟩ oracleConnectFail stateA).map
        ReconnectResult.delayUsed = some 1000 ∧ (1000 : Int) ≠ 3000 :=
  ⟨rfl, by decide⟩

/-! ### C8 -/

/-- C8 (amended): `getTools` with no filter returns every server's tools
flattened in map-insertion order then per-server discovery order; for a
**nonempty** list of names it returns exactly the concatenation of the named
servers' tool lists in the order given, a name with no registered tools
contributing the empty list.  (An empty name list instead falls back to the
all-servers path, see C10.) -/
theorem claim8_getTools_flattening (m : List (String × List Tool)) (names : List String)
    (h : names ≠ []) :
    getTools m none = (m.map Prod.snd).flatten ∧
    getTools m (some names) = (names.map (fun n => (mapGet m n).getD [])).flatten := by
  constructor
  · simp [getTools, getAllToolsAsFlatArray_eq]
  · cases names with
    | nil => exact absurd rfl h
    | cons n ns =>
        simp [getTools, getToolsFromServers_eq]

/-- Witness for C8 (amended) on a concrete two-server registry. -/
theorem claim8_getTools_flattening_witness :
    getTools sampleToolMap none = (sampleToolMap.map Prod.snd).flatten ∧
    getTools sampleToolMap (some ["b", "a", "zzz"]) =
      ((["b", "a", "zzz"] : List String).map
        (fun n => (mapGet sampleToolMap n).getD [])).flatten :=
  claim8_getTools_flattening sampleToolMap ["b", "a", "zzz"] (by simp)

/-- Counterexample for C8 as stated: with an empty list of names the claimed
result (the empty concatenation) differs from what the code returns (all
servers' tools). -/
theorem claim8_counterexample :
    getTools sampleToolMap (some []) = [⟨"t1"⟩, ⟨"t2"⟩, ⟨"t3"⟩] ∧
    (([] : List String).map (fun n => (mapGet sampleToolMap n).getD [])).flatten = [] ∧
    ([⟨"t1"⟩, ⟨"t2"⟩, ⟨"t3"⟩] : List Tool) ≠ [] :=
  ⟨rfl, rfl, by decide⟩

/-! ### C9 -/

/-- C9: `close` invokes every recorded cleanup action, in the order appended
(the result trace lists one invocation per ledger entry, in ledger order);
failures of individual actions are caught, never propagated (the trace records
the failed invocation and the loop continues — `close` is a total function
into a normal result); and afterwards the ledger, client map, tool map and
transport map are all empty, regardless of any failed action. -/
theorem claim9_close_runs_ledger_and_clears_all (s : ClientState) :
    (close s).2 = s.cleanupFunctions.map (fun c => (c.server, c.ok)) ∧
    (close s).1.clients = [] ∧
    (close s).1.serverNameToTools = [] ∧
    (close s).1.cleanupFunctions = [] ∧
    (close s).1.transportInstances = [] :=
  ⟨by simp [close, runCleanups_eq_map], rfl, rfl, rfl, rfl⟩

/-! ### C10 -/

/-- C10: `getTools` applied to an empty server-name array takes the
`!servers || servers.length === 0` branch and returns all tools from all
connected servers, exactly as `getTools()` with no argument does. -/
theorem claim10_getTools_empty_equals_no_filter (m : List (String × List Tool)) :
    getTools m (some []) = getTools m none := by
  simp [getTools]

/-! ### Lemmas about a single connection-initialization call -/

theorem initializeConnection_fail_state (serverName : String) (conn : Connection)
    (outcome : AttemptOutcome) (s : ClientState)
    (h : outcome = .connectFail ∨ outcome = .discoverFail) :
    (initializeConnection serverName conn outcome s).1.serverNameToTools = s.serverNameToTools ∧
    (initializeConnection serverName conn outcome s).2.isSome = true := by
  rcases h with h | h <;> subst h <;> cases conn <;>
    simp [initializeConnection, initializeStdioConnection, initializeSSEConnection]

theorem initializeConnection_ok_props (serverName : String) (conn : Connection)
    (ts : List Tool) (s : ClientState) :
    (initializeConnection serverName conn (.ok ts) s).2 = none ∧
    hasName (initializeConnection serverName conn (.ok ts) s).1.clients serverName = true ∧
    mapGet (initializeConnection serverName conn (.ok ts) s).1.serverNameToTools serverName
      = some ts := by
  cases conn <;>
    simp [initializeConnection, initializeStdioConnection, initializeSSEConnection,
      hasName_setName_self, mapGet_mapSet_self]

theorem initializeConnection_none_imp_ok (serverName : String) (conn : Connection)
    (outcome : AttemptOutcome) (s : ClientState)
    (h : (initializeConnection serverName conn outcome s).2 = none) :
    ∃ ts, outcome = .ok ts := by
  cases outcome with
  | ok ts => exact ⟨ts, rfl⟩
  | connectFail =>
      have := (initializeConnection_fail_state serverName conn _ s (Or.inl rfl)).2
      rw [h] at this; cases this
  | discoverFail =>
      have := (initializeConnection_fail_state serverName conn _ s (Or.inr rfl)).2
      rw [h] at this; cases this

theorem initializeConnection_err_tools (serverName : String) (conn : Connection)
    (outcome : AttemptOutcome) (s : ClientState) (e : MCPError)
    (h : (initializeConnection serverName conn outcome s).2 = some e) :
    (initializeConnection serverName conn outcome s).1.serverNameToTools
      = s.serverNameToTools := by
  cases outcome with
  | ok ts =>
      rw [(initializeConnection_ok_props serverName conn ts s).1] at h; cases h
  | connectFail => exact (initializeConnection_fail_state serverName conn _ s (Or.inl rfl)).1
  | discoverFail => exact (initializeConnection_fail_state serverName conn _ s (Or.inr rfl)).1

/-! ### Unfolding lemmas for the reconnect loop -/

theorem reconnectLoop_succ_err (serverName : String) (conn : Connection)
    (oracle : Nat → AttemptOutcome) (r attempts : Nat) (s : ClientState) (e : MCPError)
    (h2 : (initializeConnection serverName conn (oracle (attempts + 1)) s).2 = some e) :
    reconnectLoop serverName conn oracle (r + 1) attempts s =
      ⟨(reconnectLoop serverName conn oracle r (attempts + 1)
          (initializeConnection serverName conn (oracle (attempts + 1)) s).1).state,
       (reconnectLoop serverName conn oracle r (attempts + 1)
          (initializeConnection serverName conn (oracle (attempts + 1)) s).1).attempts,
       (reconnectLoop serverName conn oracle r (attempts + 1)
          (initializeConnection serverName conn (oracle (attempts + 1)) s).1).connected,
       s :: (reconnectLoop serverName conn oracle r (attempts + 1)
          (initializeConnection serverName conn (oracle (attempts + 1)) s).1).trace⟩ := by
  conv_lhs => rw [reconnectLoop]
  simp [h2]

theorem reconnectLoop_succ_ok (serverName : String) (conn : Connection)
    (oracle : Nat → AttemptOutcome) (r attempts : Nat) (s : ClientState)
    (h2 : (initializeConnection serverName conn (oracle (attempts + 1)) s).2 = none) :
    reconnectLoop serverName conn oracle (r + 1) attempts s =
      ⟨(initializeConnection serverName conn (oracle (attempts + 1)) s).1, attempts + 1, true,
        [s]⟩ := by
  obtain ⟨ts, hok⟩ := initializeConnection_none_imp_ok serverName conn _ s h2
  have hc : hasName
      (initializeConnection serverName conn (oracle (attempts + 1)) s).1.clients serverName
      = true := by
    rw [hok]; exact (initializeConnection_ok_props serverName conn ts s).2.1
  conv_lhs => rw [reconnectLoop]
  simp [h2, hc]

theorem reconnectLoop_all_fail (serverName : String) (conn : Connection)
    (oracle : Nat → AttemptOutcome)
    (hfail : ∀ n, oracle n = .connectFail ∨ oracle n = .discoverFail) :
    ∀ (remaining attempts : Nat) (s : ClientState),
      (reconnectLoop serverName conn oracle remaining attempts s).connected = false ∧
      (reconnectLoop serverName conn oracle remaining attempts s).attempts
        = attempts + remaining ∧
      (reconnectLoop serverName conn oracle remaining attempts s).state.serverNameToTools
        = s.serverNameToTools := by
  intro remaining
  induction remaining with
  | zero => intro attempts s; simp [reconnectLoop]
  | succ r ih =>
      intro attempts s
      have hf := initializeConnection_fail_state serverName conn (oracle (attempts + 1)) s
        (hfail (attempts + 1))
      rcases h2 : (initializeConnection serverName conn (oracle (attempts + 1)) s).2 with _ | e
      · rw [h2] at hf; simp at hf
      · rw [reconnectLoop_succ_err serverName conn oracle r attempts s e h2]
        have := ih (attempts + 1)
          (initializeConnection serverName conn (oracle (attempts + 1)) s).1
        refine ⟨this.1, ?_, ?_⟩
        · rw [this.2.1]; omega
        · rw [this.2.2, hf.1]

theorem reconnectLoop_trace_head (serverName : String) (conn : Connection)
    (oracle : Nat → AttemptOutcome) (r attempts : Nat) (s : ClientState) :
    (reconnectLoop serverName conn oracle (r + 1) attempts s).trace.head? = some s := by
  rcases h2 : (initializeConnection serverName conn (oracle (attempts + 1)) s).2 with _ | e
  · rw [reconnectLoop_succ_ok serverName conn oracle r attempts s h2]; rfl
  · rw [reconnectLoop_succ_err serverName conn oracle r attempts s e h2]; rfl

theorem reconnectLoop_trace_tools (serverName : String) (conn : Connection)
    (oracle : Nat → AttemptOutcome) :
    ∀ (remaining attempts : Nat) (s : ClientState),
      mapGet s.serverNameToTools serverName = none →
      ∀ st ∈ (reconnectLoop serverName conn oracle remaining attempts s).trace,
        mapGet st.serverNameToTools serverName = none := by
  intro remaining
  induction remaining with
  | zero => intro attempts s hs st hst; simp [reconnectLoop] at hst
  | succ r ih =>
      intro attempts s hs st hst
      rcases h2 : (initializeConnection serverName conn (oracle (attempts + 1)) s).2 with _ | e
      · rw [reconnectLoop_succ_ok serverName conn oracle r attempts s h2] at hst
        simp at hst; subst hst; exact hs
      · rw [reconnectLoop_succ_err serverName conn oracle r attempts s e h2] at hst
        simp at hst
        rcases hst with hst | hst
        · subst hst; exact hs
        · refine ih (attempts + 1) _ ?_ st hst
          rw [initializeConnection_err_tools serverName conn _ s e h2]
          exact hs

/-! ### C3 -/

/-- C3: for a server whose enabled restart/reconnect policy triggers the
reconnect path, every error an attempt raises is caught inside the loop, so
the loop always returns normally (`attemptReconnect` is a total function into
an ordinary result, with no error channel).  When every attempt fails, the
loop runs through all `maxAttempts` attempts (each caught error lets it
continue), ends not connected, and the server is absent from subsequent
`getTools()` results, while other servers' registered tools are untouched. -/
theorem claim3_reconnect_errors_caught (serverName : String) (conn : Connection)
    (maxAttemptsArg delayMsArg : Option Int) (oracle : Nat → AttemptOutcome)
    (s : ClientState) (r : ReconnectResult)
    (hr : r = attemptReconnect serverName conn maxAttemptsArg delayMsArg oracle s)
    (hfail : ∀ n, oracle n = .connectFail ∨ oracle n = .discoverFail) :
    r.connected = false ∧
    r.attempts = (maxAttemptsArg.getD 3).toNat ∧
    mapGet r.state.serverNameToTools serverName = none ∧
    getTools r.state.serverNameToTools (some [serverName]) = [] ∧
    (∀ m, m ≠ serverName →
      mapGet r.state.serverNameToTools m = mapGet s.serverNameToTools m) := by
  subst hr
  have h := reconnectLoop_all_fail serverName conn oracle hfail
    ((maxAttemptsArg.getD 3).toNat) 0 (cleanupServerResources serverName s)
  have htools : mapGet (attemptReconnect serverName conn maxAttemptsArg delayMsArg oracle
      s).state.serverNameToTools serverName = none := by
    simp only [attemptReconnect]
    rw [h.2.2]
    simp [cleanupServerResources, mapGet_mapDel_self]
  refine ⟨?_, ?_, htools, ?_, ?_⟩
  · simpa only [attemptReconnect] using h.1
  · simp only [attemptReconnect]
    rw [h.2.1]
    omega
  · simp [getTools, getToolsFromServers_eq, htools]
  · intro m hm
    simp only [attemptReconnect]
    rw [h.2.2]
    simp [cleanupServerResources, mapGet_mapDel_other _ hm]

/-- Witness for C3 at the spec's own scenario: `maxAttempts = 2`, every
attempt failing. -/
theorem claim3_witness :
    (attemptReconnect "fs" (.stdio sampleStdioConn) (some 2) (some 0) oracleConnectFail
      stateA).connected = false ∧
    (attemptReconnect "fs" (.stdio sampleStdioConn) (some 2) (some 0) oracleConnectFail
      stateA).attempts = ((some (2 : Int)).getD 3).toNat ∧
    mapGet (attemptReconnect "fs" (.stdio sampleStdioConn) (some 2) (some 0) oracleConnectFail
      stateA).state.serverNameToTools "fs" = none ∧
    getTools (attemptReconnect "fs" (.stdio sampleStdioConn) (some 2) (some 0) oracleConnectFail
      stateA).state.serverNameToTools (some ["fs"]) = [] := by
  have h := claim3_reconnect_errors_caught "fs" (.stdio sampleStdioConn) (some 2) (some 0)
    oracleConnectFail stateA _ rfl (fun _ => Or.inl rfl)
  exact ⟨h.1, h.2.1, h.2.2.1, h.2.2.2.1⟩

/-! ### C4 -/

/-- C4: on every entry into `attemptReconnect`, `cleanupServerResources` runs
unconditionally before the loop: if no attempt is ever started the final state
is exactly the evicted state, the state at the start of the first attempt is
exactly the evicted state — with the server gone from the client map, the tool
registry and the transport map — and at the start of every attempt before a
successful reconnect the registry still has no entry for the server (the old
tool set is never exposed; a new entry appears only upon the success that ends
the loop). -/
theorem claim4_eviction_precedes_first_attempt (serverName : String) (conn : Connection)
    (maxAttemptsArg delayMsArg : Option Int) (oracle : Nat → AttemptOutcome)
    (s : ClientState) (r : ReconnectResult)
    (hr : r = attemptReconnect serverName conn maxAttemptsArg delayMsArg oracle s) :
    (r.trace = [] → r.state = cleanupServerResources serverName s) ∧
    (∀ st, r.trace.head? = some st →
        st = cleanupServerResources serverName s ∧
        hasName st.clients serverName = false ∧
        mapGet st.serverNameToTools serverName = none ∧
        hasName st.transportInstances serverName = false) ∧
    (∀ st ∈ r.trace, mapGet st.serverNameToTools serverName = none) := by
  subst hr
  have hev : mapGet (cleanupServerResources serverName s).serverNameToTools serverName
      = none := by
    simp [cleanupServerResources, mapGet_mapDel_self]
  rcases hn : (maxAttemptsArg.getD 3).toNat with _ | n
  · refine ⟨?_, ?_, ?_⟩ <;> simp [attemptReconnect, hn, reconnectLoop]
  · have hhead := reconnectLoop_trace_head serverName conn oracle n 0
      (cleanupServerResources serverName s)
    refine ⟨?_, ?_, ?_⟩
    · intro htr
      simp only [attemptReconnect, hn] at htr
      rw [htr] at hhead
      cases hhead
    · intro st hst
      simp only [attemptReconnect, hn] at hst
      rw [hhead] at hst
      have hst' : st = cleanupServerResources serverName s := (Option.some.inj hst).symm
      subst hst'
      refine ⟨rfl, ?_, hev, ?_⟩
      · simp [cleanupServerResources, hasName_delName_self]
      · simp [cleanupServerResources, hasName_delName_self]
    · intro st hst
      simp only [attemptReconnect, hn] at hst
      exact reconnectLoop_trace_tools serverName conn oracle (n + 1) 0
        (cleanupServerResources serverName s) hev st hst

/-- Witness for C4 at a concrete reconnect from a live state. -/
theorem claim4_witness :
    cleanupServerResources "fs" stateA
        = (attemptReconnect "fs" (.stdio sampleStdioConn) (some 1) none oracleConnectFail
            stateA).trace.headD emptyState ∧
    hasName (cleanupServerResources "fs" stateA).clients "fs" = false ∧
    mapGet (cleanupServerResources "fs" stateA).serverNameToTools "fs" = none ∧
    hasName (cleanupServerResources "fs" stateA).transportInstances "fs" = false := by
  have h := (claim4_eviction_precedes_first_attempt "fs" (.stdio sampleStdioConn) (some 1)
    none oracleConnectFail stateA _ rfl).2.1 (cleanupServerResources "fs" stateA) rfl
  exact ⟨rfl, h.2.1, h.2.2.1, h.2.2.2⟩

/-! ### String lemmas for error messages -/

theorem string_data_append (a b : String) : (a ++ b).data = a.data ++ b.data := by
  cases a; cases b; rfl

theorem substr_mid (p n q : String) : n.data <:+: (p ++ n ++ q).data := by
  rw [string_data_append, string_data_append]
  exact ⟨p.data, q.data, by simp⟩

/-! ### Per-call lemmas used by C5 -/

theorem initializeConnection_fail_err (serverName : String) (conn : Connection)
    (outcome : AttemptOutcome) (s : ClientState)
    (h : outcome = .connectFail ∨ outcome = .discoverFail) :
    ∃ e, (initializeConnection serverName conn outcome s).2 = some e ∧
      mentions e serverName := by
  rcases h with h | h <;> subst h <;> cases conn
  · exact ⟨_, rfl, Or.inl rfl⟩
  · exact ⟨_, rfl, Or.inl rfl⟩
  · exact ⟨_, rfl, Or.inr (substr_mid "Failed to load tools from server \"" serverName "\"")⟩
  · exact ⟨_, rfl, Or.inl rfl⟩

theorem initializeConnection_other (serverName : String) (conn : Connection)
    (outcome : AttemptOutcome) (s : ClientState) (m : String) (hm : m ≠ serverName) :
    hasName (initializeConnection serverName conn outcome s).1.clients m
        = hasName s.clients m ∧
    mapGet (initializeConnection serverName conn outcome s).1.serverNameToTools m
        = mapGet s.serverNameToTools m := by
  cases outcome <;> cases conn <;>
    simp [initializeConnection, initializeStdioConnection, initializeSSEConnection,
      hasName_setName_other _ hm, mapGet_mapSet_other _ _ hm]

theorem initializeConnection_clients_mono (serverName : String) (conn : Connection)
    (outcome : AttemptOutcome) (s : ClientState) (m : String)
    (h : hasName s.clients m = true) :
    hasName (initializeConnection serverName conn outcome s).1.clients m = true := by
  cases outcome <;> cases conn <;>
    simp [initializeConnection, initializeStdioConnection, initializeSSEConnection,
      hasName_setName_of_hasName _ h, h]

theorem initializeConnection_tools_isSome_mono (serverName : String) (conn : Connection)
    (outcome : AttemptOutcome) (s : ClientState) (m : String)
    (h : (mapGet s.serverNameToTools m).isSome = true) :
    (mapGet (initializeConnection serverName conn outcome s).1.serverNameToTools m).isSome
      = true := by
  cases outcome <;> cases conn <;>
    simp [initializeConnection, initializeStdioConnection, initializeSSEConnection,
      mapGet_isSome_mapSet _ _ _ h, h]

theorem initializeConnections_clients_mono (oracle : String → AttemptOutcome)
    (l : List (String × Connection)) :
    ∀ (s : ClientState) (m : String), hasName s.clients m = true →
      hasName (initializeConnections oracle l s).1.clients m = true := by
  induction l with
  | nil => intro s m h; exact h
  | cons p rest ih =>
      intro s m h
      obtain ⟨pn, pc⟩ := p
      have h1 := initializeConnection_clients_mono pn pc (oracle pn) s m h
      simp only [initializeConnections]
      rcases h2 : (initializeConnection pn pc (oracle pn) s).2 with _ | e
      · simpa only [h2] using ih _ m h1
      · simpa only [h2] using h1

theorem initializeConnections_tools_isSome_mono (oracle : String → AttemptOutcome)
    (l : List (String × Connection)) :
    ∀ (s : ClientState) (m : String), (mapGet s.serverNameToTools m).isSome = true →
      (mapGet (initializeConnections oracle l s).1.serverNameToTools m).isSome = true := by
  induction l with
  | nil => intro s m h; exact h
  | cons p rest ih =>
      intro s m h
      obtain ⟨pn, pc⟩ := p
      have h1 := initializeConnection_tools_isSome_mono pn pc (oracle pn) s m h
      simp only [initializeConnections]
      rcases h2 : (initializeConnection pn pc (oracle pn) s).2 with _ | e
      · simpa only [h2] using ih _ m h1
      · simpa only [h2] using h1

/-! ### C5 -/

/-- C5: `initializeConnections` processes the configured servers sequentially
in configuration order.  If every server before `failName` succeeds and
`failName`'s connect or tool discovery fails, the call returns the thrown
`MCPClientError`, which carries `failName` (in its `serverName` tag or its
message); every earlier server is still connected (present in the client map,
tools registered); and every not-yet-processed server is untouched — no
rollback of already-connected servers occurs. -/
theorem claim5_first_failure_aborts (oracle : String → AttemptOutcome)
    (pre : List (String × Connection)) (failName : String) (failConn : Connection)
    (post : List (String × Connection)) (s : ClientState)
    (hpre : ∀ p ∈ pre, ∃ ts, oracle p.1 = .ok ts)
    (hfail : oracle failName = .connectFail ∨ oracle failName = .discoverFail)
    (hpost : ∀ q ∈ post, q.1 ≠ failName ∧ ∀ p ∈ pre, q.1 ≠ p.1) :
    (∃ e, (initializeConnections oracle (pre ++ (failName, failConn) :: post) s).2 = some e ∧
        mentions e failName) ∧
    (∀ p ∈ pre,
        hasName (initializeConnections oracle
          (pre ++ (failName, failConn) :: post) s).1.clients p.1 = true ∧
        (mapGet (initializeConnections oracle
          (pre ++ (failName, failConn) :: post) s).1.serverNameToTools p.1).isSome = true) ∧
    (∀ q ∈ post,
        hasName (initializeConnections oracle
          (pre ++ (failName, failConn) :: post) s).1.clients q.1 = hasName s.clients q.1 ∧
        mapGet (initializeConnections oracle
          (pre ++ (failName, failConn) :: post) s).1.serverNameToTools q.1
          = mapGet s.serverNameToTools q.1) := by
  induction pre generalizing s with
  | nil =>
      obtain ⟨e, he, hme⟩ :=
        initializeConnection_fail_err failName failConn (oracle failName) s hfail
      simp only [List.nil_append, initializeConnections, he]
      refine ⟨⟨e, rfl, hme⟩, by simp, ?_⟩
      intro q hq
      exact initializeConnection_other failName failConn (oracle failName) s q.1
        ((hpost q hq).1)
  | cons p pre2 ih =>
      obtain ⟨pn, pc⟩ := p
      obtain ⟨ts, hts⟩ := hpre (pn, pc) (by simp)
      have hok := initializeConnection_ok_props pn pc ts s
      have hnone : (initializeConnection pn pc (oracle pn) s).2 = none := by
        rw [hts]; exact hok.1
      have hpre2 : ∀ p ∈ pre2, ∃ ts, oracle p.1 = .ok ts := fun p hp =>
        hpre p (List.mem_cons_of_mem _ hp)
      have hpost2 : ∀ q ∈ post, q.1 ≠ failName ∧ ∀ p ∈ pre2, q.1 ≠ p.1 := by
        intro q hq
        exact ⟨(hpost q hq).1, fun p hp => (hpost q hq).2 p (List.mem_cons_of_mem _ hp)⟩
      have ihs := ih (initializeConnection pn pc (oracle pn) s).1 hpre2 hpost2
      simp only [List.cons_append, initializeConnections, hnone]
      refine ⟨ihs.1, ?_, ?_⟩
      · intro p hp
        rcases List.mem_cons.mp hp with hp | hp
        · subst hp
          constructor
          · exact initializeConnections_clients_mono oracle _ _ _
              (by rw [hts] at hnone ⊢; exact hok.2.1)
          · refine initializeConnections_tools_isSome_mono oracle _ _ _ ?_
            rw [hts]
            rw [hts] at hnone
            simp [hok.2.2]
        · exact ihs.2.1 p hp
      · intro q hq
        have hstep := initializeConnection_other pn pc (oracle pn) s q.1
          ((hpost q hq).2 (pn, pc) (by simp))
        have hrest := ihs.2.2 q hq
        exact ⟨hrest.1.trans hstep.1, hrest.2.trans hstep.2⟩

/-- Witness for C5: three configured servers; `"a"` succeeds, `"b"` fails to
connect, `"c"` is never processed. -/
theorem claim5_witness :
    (∃ e, (initializeConnections oracleAB [("a", connA), ("b", connB), ("c", connC)]
        emptyState).2 = some e ∧ mentions e "b") ∧
    hasName (initializeConnections oracleAB [("a", connA), ("b", connB), ("c", connC)]
        emptyState).1.clients "a" = true ∧
    (mapGet (initializeConnections oracleAB [("a", connA), ("b", connB), ("c", connC)]
        emptyState).1.serverNameToTools "a").isSome = true ∧
    hasName (initializeConnections oracleAB [("a", connA), ("b", connB), ("c", connC)]
        emptyState).1.clients "c" = hasName emptyState.clients "c" ∧
    mapGet (initializeConnections oracleAB [("a", connA), ("b", connB), ("c", connC)]
        emptyState).1.serverNameToTools "c" = mapGet emptyState.serverNameToTools "c" := by
  have h := claim5_first_failure_aborts oracleAB [("a", connA)] "b" connB [("c", connC)]
    emptyState
    (by intro p hp; simp at hp; subst hp; exact ⟨[toolA], rfl⟩)
    (Or.inl rfl)
    (by intro q hq; simp at hq; subst hq; exact ⟨by decide, by intro p hp; simp at hp; subst hp; decide⟩)
  have ha := h.2.1 ("a", connA) (by simp)
  have hc := h.2.2 ("c", connC) (by simp)
  exact ⟨h.1, ha.1, ha.2, hc.1, hc.2⟩

/-! ### Except bind reduction -/

theorem except_error_bind {α β : Type} (e : MCPError) (f : α → Except MCPError β) :
    (Except.error e >>= f) = Except.error e := rfl

theorem except_ok_bind {α β : Type} (a : α) (f : α → Except MCPError β) :
    (Except.ok a >>= f) = f a := rfl

/-! ### C7 -/

/-- C7 (amended): validation of an SSE descriptor fails with an
`MCPClientError` — and the descriptor is never added by `processConnections` —
whenever the url does not parse as an absolute URL or its protocol does not
*start with* `"http"`.  The source checks `url.protocol.startsWith("http")`
rather than equality with `http:`/`https:`, so (see the counterexample) a
syntactically valid URL with a scheme merely extending `http`, such as
`httpx://host`, passes validation, contrary to the claim as stated; for
schemes like `ftp` that do not start with `http` the claim's behaviour
holds. -/
theorem claim7_sse_invalid_scheme_rejected (serverName : String) (config : JValue) (u : String)
    (htrans : jGet config "transport" = some (.str "sse"))
    (hurl : jGet config "url" = some (.str u))
    (hbad : parseURL u = none ∨
      ∃ pu, parseURL u = some pu ∧ strStartsWith pu.protocol "http" = false) :
    (∃ e, processSSEConfig serverName config = .error e) ∧
    (∀ pre post, ∃ e, processConnections (pre ++ (serverName, config) :: post)
        = .error e) := by
  have hobj : jIsObjectNonNull config = true := by
    cases config <;> simp_all [jGet, jIsObjectNonNull]
  have hfail : ∃ e, processSSEConfig serverName config = .error e := by
    by_cases hu : u = ""
    · subst hu
      exact ⟨⟨"Missing or invalid url for server \"" ++ serverName ++ "\"", none⟩,
        by simp [processSSEConfig, hurl, except_error_bind]⟩
    · rcases hbad with hb | ⟨pu, hb, hf⟩
      · exact ⟨⟨"Invalid url for server \"" ++ serverName ++ " - must be a valid URL", none⟩,
          by simp [processSSEConfig, hurl, hu, hb, except_error_bind, except_ok_bind]⟩
      · exact ⟨⟨"Invalid url for server \"" ++ serverName ++ " - must be a valid URL", none⟩,
          by simp [processSSEConfig, hurl, hu, hb, hf, except_error_bind, except_ok_bind]⟩
  refine ⟨hfail, ?_⟩
  intro pre post
  induction pre with
  | nil =>
      have hstdio : isStdioConnection config = false := by
        simp [isStdioConnection, htrans]
      have hsse : isSSEConnection config = true := by
        simp [isSSEConnection, hobj, htrans, hurl]
      obtain ⟨e, he⟩ := hfail
      exact ⟨e, by simp [processConnections, hobj, hstdio, hsse, he]⟩
  | cons q pre2 ih =>
      obtain ⟨qn, qc⟩ := q
      obtain ⟨e2, he2⟩ := ih
      by_cases hq : jIsObjectNonNull qc = true
      · by_cases hqs : isStdioConnection qc = true
        · rcases hps : processStdioConfig qn qc with e3 | c3
          · exact ⟨e3, by simp [processConnections, hq, hqs, hps]⟩
          · exact ⟨e2, by simp [processConnections, hq, hqs, hps, he2]⟩
        · by_cases hqe : isSSEConnection qc = true
          · rcases hps : processSSEConfig qn qc with e3 | c3
            · exact ⟨e3, by simp [processConnections, hq, hqs, hqe, hps]⟩
            · exact ⟨e2, by simp [processConnections, hq, hqs, hqe, hps, he2]⟩
          · exact ⟨⟨"Server \"" ++ qn ++ "\" has invalid or unsupported configuration. Skipping.",
                none⟩, by simp [processConnections, hq, hqs, hqe]⟩
      · exact ⟨e2, by simp [processConnections, hq, he2]⟩

/-- Witness for C7 (amended) at the spec's own example `ftp://host`. -/
theorem claim7_witness :
    (∃ e, processSSEConfig "search" cfgFtp = Except.error e) ∧
    (∃ e, processConnections [("search", cfgFtp)] = Except.error e) := by
  have h := claim7_sse_invalid_scheme_rejected "search" cfgFtp "ftp://host" rfl rfl
    (Or.inr ⟨⟨"ftp:"⟩, rfl, rfl⟩)
  exact ⟨h.1, h.2 [] []⟩

/-- Counterexample for C7 as stated: `httpx://host` is a syntactically valid
absolute URL whose scheme is neither `http` nor `https`, yet validation
accepts the descriptor and adds it to the validated connection set. -/
theorem claim7_counterexample :
    processSSEConfig "search" cfgHttpx = Except.ok { url := "httpx://host" } ∧
    processConnections [("search", cfgHttpx)] =
      Except.ok [("search", .sse { url := "httpx://host" })] ∧
    parseURL "httpx://host" = some ⟨"httpx:"⟩ ∧
    ("httpx:" : String) ≠ "http:" ∧ ("httpx:" : String) ≠ "https:" :=
  ⟨rfl, rfl, rfl, by decide, by decide⟩

/-! ### Lemmas about environment-variable interpolation -/

theorem substIfTruthy_of_not_truthy (env : Env) (s : String)
    (h : envTruthy env (placeholderName s) = false) : substIfTruthy env s = s := by
  unfold substIfTruthy
  unfold envTruthy at h
  cases he : env (placeholderName s) with
  | none => rfl
  | some v =>
      rw [he] at h
      have hv : v = "" := by simpa using h
      subst hv
      simp

theorem jFieldsGet_processFields (env : Env) :
    ∀ (fields : JFields) (key : String),
      jFieldsGet (processFields env fields) key
        = (jFieldsGet fields key).map (processEntry env key)
  | .nil, _ => rfl
  | .cons k v rest, key => by
      by_cases hk : k = key
      · subst hk; simp [processFields, jFieldsGet]
      · simp [processFields, jFieldsGet, hk, jFieldsGet_processFields env rest key]

theorem envPassConfigFields_get_env (env : Env) (sn : String) :
    ∀ fields : JFields,
      jFieldsGet (envPassConfigFields env sn fields).1 "env"
        = (jFieldsGet fields "env").map (fun v => (envPassValue env sn v).1)
  | .nil => rfl
  | .cons k v rest => by
      by_cases hk : k = "env"
      · subst hk; simp [envPassConfigFields, jFieldsGet]
      · simp [envPassConfigFields, jFieldsGet, hk, envPassConfigFields_get_env env sn rest]

theorem envPassConfigFields_get_other (env : Env) (sn : String) (key : String)
    (h : key ≠ "env") :
    ∀ fields : JFields,
      jFieldsGet (envPassConfigFields env sn fields).1 key = jFieldsGet fields key
  | .nil => rfl
  | .cons k v rest => by
      by_cases hk : k = "env"
      · subst hk
        simp [envPassConfigFields, jFieldsGet, Ne.symm h,
          envPassConfigFields_get_other env sn key h rest]
      · by_cases hk2 : k = key
        · subst hk2; simp [envPassConfigFields, jFieldsGet, hk]
        · simp [envPassConfigFields, jFieldsGet, hk, hk2,
            envPassConfigFields_get_other env sn key h rest]

theorem envPassFields_get (env : Env) (sn : String) :
    ∀ (fields : JFields) (key s : String),
      jFieldsGet fields key = some (.str s) →
      looksLikePlaceholder s = true →
      jFieldsGet (envPassFields env sn fields).1 key
          = some (.str (substIfTruthy env s)) ∧
        (envTruthy env (placeholderName s) = false →
          (placeholderName s, sn) ∈ (envPassFields env sn fields).2)
  | .nil, key, s, hget, _ => by simp [jFieldsGet] at hget
  | .cons k v rest, key, s, hget, hshape => by
      by_cases hk : k = key
      · subst hk
        rw [jFieldsGet] at hget
        simp only [if_pos rfl] at hget
        have hv : v = .str s := Option.some.inj hget
        subst hv
        constructor
        · cases ht : envTruthy env (placeholderName s)
          · simp [envPassFields, jFieldsGet, hshape, ht,
              substIfTruthy_of_not_truthy env s ht]
          · simp [envPassFields, jFieldsGet, hshape, ht]
        · intro ht
          simp [envPassFields, jFieldsGet, hshape, ht]
      · have hget2 : jFieldsGet rest key = some (.str s) := by
          rw [jFieldsGet] at hget
          simpa [hk] using hget
        have ih := envPassFields_get env sn rest key s hget2 hshape
        constructor
        · simpa [envPassFields, jFieldsGet, hk] using ih.1
        · intro ht
          simp only [envPassFields]
          exact List.mem_append_right _ (ih.2 ht)

theorem envPassConfigFields_warn (env : Env) (sn : String) :
    ∀ (fields : JFields) (v : JValue) (w : String × String),
      jFieldsGet fields "env" = some v →
      w ∈ (envPassValue env sn v).2 →
      w ∈ (envPassConfigFields env sn fields).2
  | .nil, v, w, hv, _ => by simp [jFieldsGet] at hv
  | .cons k val rest, v, w, hv, hw => by
      by_cases hk : k = "env"
      · subst hk
        rw [jFieldsGet] at hv
        simp only [if_pos rfl] at hv
        have hvv : val = v := Option.some.inj hv
        subst hvv
        simp only [envPassConfigFields, if_pos rfl]
        exact List.mem_append_left _ hw
      · have hv2 : jFieldsGet rest "env" = some v := by
          rw [jFieldsGet] at hv
          simpa [hk] using hv
        simpa [envPassConfigFields, hk] using
          envPassConfigFields_warn env sn rest v w hv2 hw

theorem isTransportStdio_obj (config : JValue) (h : isTransportStdio config = true) :
    ∃ fields, config = .obj fields := by
  cases config <;> simp_all [isTransportStdio, jGet]

theorem jPathGet_envPassConfig (env : Env) (sn : String) (fields : JFields)
    (p : List String) (k : String) (s : String) (hp : ∀ c ∈ p, c ≠ "env")
    (hget : jPathGet (.obj fields) (p ++ [k]) = some (.str s)) :
    jPathGet (.obj (envPassConfigFields env sn fields).1) (p ++ [k]) = some (.str s) := by
  cases p with
  | nil =>
      have hk0 : jFieldsGet fields k = some (.str s) := by
        rcases hw : jFieldsGet fields k with _ | w
        · simp [jPathGet, jGet, hw] at hget
        · rw [show w = JValue.str s by
            simpa [jPathGet, jGet, hw] using hget]
      by_cases hk : k = "env"
      · subst hk
        have hres : jFieldsGet (envPassConfigFields env sn fields).1 "env"
            = some (.str s) := by
          rw [envPassConfigFields_get_env, hk0]; rfl
        simp [jPathGet, jGet, hres]
      · have hres : jFieldsGet (envPassConfigFields env sn fields).1 k = some (.str s) := by
          rw [envPassConfigFields_get_other env sn k hk]; exact hk0
        simp [jPathGet, jGet, hres]
  | cons c p2 =>
      have hc : c ≠ "env" := hp c (by simp)
      obtain ⟨w, hw, hrest⟩ :
          ∃ w, jFieldsGet fields c = some w ∧ jPathGet w (p2 ++ [k]) = some (.str s) := by
        rcases hw : jFieldsGet fields c with _ | w
        · simp [jPathGet, jGet, hw] at hget
        · exact ⟨w, rfl, by simpa [jPathGet, jGet, hw] using hget⟩
      have hres : jFieldsGet (envPassConfigFields env sn fields).1 c = some w := by
        rw [envPassConfigFields_get_other env sn c hc]; exact hw
      simp [jPathGet, jGet, hres, hrest]

theorem jPathGet_processRec (env : Env) :
    ∀ (p : List String) (v : JValue) (k : String) (s : String),
      (∀ c ∈ p, c ≠ "env") →
      jPathGet v (p ++ [k]) = some (.str s) →
      looksLikePlaceholder s = true →
      jPathGet (processEnvVarsRecursively env v) (p ++ [k])
        = some (.str (substIfTruthy env s)) := by
  intro p
  induction p with
  | nil =>
      intro v k s hp hget hshape
      cases v with
      | obj fields =>
          have hk0 : jFieldsGet fields k = some (.str s) := by
            rcases hw : jFieldsGet fields k with _ | w
            · simp [jPathGet, jGet, hw] at hget
            · rw [show w = JValue.str s by
                simpa [jPathGet, jGet, hw] using hget]
          have hres : jFieldsGet (processFields env fields) k
              = some (.str (substIfTruthy env s)) := by
            rw [jFieldsGet_processFields, hk0]
            simp [processEntry, hshape]
          simp [processEnvVarsRecursively, jPathGet, jGet, hres]
      | str s2 => simp [jPathGet, jGet] at hget
      | num n => simp [jPathGet, jGet] at hget
      | bool b => simp [jPathGet, jGet] at hget
      | null => simp [jPathGet, jGet] at hget
      | arr items => simp [jPathGet, jGet] at hget
  | cons c p2 ih =>
      intro v k s hp hget hshape
      have hc : c ≠ "env" := hp c (by simp)
      cases v with
      | obj fields =>
          obtain ⟨w, hw, hrest⟩ :
              ∃ w, jFieldsGet fields c = some w ∧
                jPathGet w (p2 ++ [k]) = some (.str s) := by
            rcases hw : jFieldsGet fields c with _ | w
            · simp [jPathGet, jGet, hw] at hget
            · exact ⟨w, rfl, by simpa [jPathGet, jGet, hw] using hget⟩
          cases w with
          | obj wf =>
              have hrec := ih (.obj wf) k s (fun c2 h2 => hp c2 (by simp [h2])) hrest hshape
              have hres : jFieldsGet (processFields env fields) c
                  = some (.obj (processFields env wf)) := by
                rw [jFieldsGet_processFields, hw]
                simp [processEntry, hc]
              simp only [processEnvVarsRecursively] at hrec
              simp [processEnvVarsRecursively, jPathGet, jGet, hres, hrec]
          | str s2 => cases p2 <;> simp [jPathGet, jGet] at hrest
          | num n => cases p2 <;> simp [jPathGet, jGet] at hrest
          | bool b => cases p2 <;> simp [jPathGet, jGet] at hrest
          | null => cases p2 <;> simp [jPathGet, jGet] at hrest
          | arr items => cases p2 <;> simp [jPathGet, jGet] at hrest
      | str s2 => simp [jPathGet, jGet] at hget
      | num n => simp [jPathGet, jGet] at hget
      | bool b => simp [jPathGet, jGet] at hget
      | null => simp [jPathGet, jGet] at hget
      | arr items => simp [jPathGet, jGet] at hget

/-! ### C2 -/

/-- C2 (amended): the interpolation step of `loadConfigFromFile` leaves every
descriptor whose `transport` field is not literally `"stdio"` untouched (no
substitution, no warning) and never fails.  For a descriptor with
`transport: "stdio"`: an `env`-map entry of the exact form `$\x7bNAME\x7d` is
replaced by the environment value when `NAME` is set to a non-empty value,
otherwise the placeholder is preserved and a warning `(NAME, server)` is
recorded; and any other placeholder-shaped string value reachable through
object fields on a path avoiding `env` keys is likewise replaced exactly when
the variable is set non-empty, silently (no warning) otherwise. -/
theorem claim2_interpolation (env : Env) (serverName : String) (config : JValue) :
    (isTransportStdio config = false → fileEnvEntry env serverName config = (config, [])) ∧
    (∀ envFields key s, isTransportStdio config = true →
        jGet config "env" = some (.obj envFields) →
        jFieldsGet envFields key = some (.str s) →
        looksLikePlaceholder s = true →
        (∃ envFields2,
            jGet (fileEnvEntry env serverName config).1 "env" = some (.obj envFields2) ∧
            jFieldsGet envFields2 key = some (.str (substIfTruthy env s))) ∧
        (envTruthy env (placeholderName s) = false →
            (placeholderName s, serverName) ∈ (fileEnvEntry env serverName config).2)) ∧
    (∀ p k s, isTransportStdio config = true →
        (∀ c ∈ p, c ≠ "env") →
        jPathGet config (p ++ [k]) = some (.str s) →
        looksLikePlaceholder s = true →
        jPathGet (fileEnvEntry env serverName config).1 (p ++ [k])
          = some (.str (substIfTruthy env s))) := by
  refine ⟨?_, ?_, ?_⟩
  · intro h
    simp [fileEnvEntry, h]
  · intro envFields key s hstdio henv hkey hshape
    obtain ⟨fields, hcfg⟩ := isTransportStdio_obj config hstdio
    subst hcfg
    have hfe : fileEnvEntry env serverName (.obj fields)
        = processServerEnvVars env serverName (.obj fields) := by
      simp [fileEnvEntry, hstdio]
    rw [hfe]
    have henv' : jFieldsGet fields "env" = some (.obj envFields) := henv
    have hinner := envPassFields_get env serverName envFields key s hkey hshape
    constructor
    · refine ⟨(envPassFields env serverName envFields).1, ?_, hinner.1⟩
      show jFieldsGet (processFields env (envPassConfigFields env serverName fields).1) "env"
        = _
      rw [jFieldsGet_processFields, envPassConfigFields_get_env, henv']
      rfl
    · intro ht
      show (placeholderName s, serverName)
        ∈ (envPassConfigFields env serverName fields).2
      exact envPassConfigFields_warn env serverName fields (.obj envFields) _ henv'
        (hinner.2 ht)
  · intro p k s hstdio hp hget hshape
    obtain ⟨fields, hcfg⟩ := isTransportStdio_obj config hstdio
    subst hcfg
    have hfe : fileEnvEntry env serverName (.obj fields)
        = processServerEnvVars env serverName (.obj fields) := by
      simp [fileEnvEntry, hstdio]
    rw [hfe]
    have h1 := jPathGet_envPassConfig env serverName fields p k s hp hget
    have h2 := jPathGet_processRec env p
      (.obj (envPassConfigFields env serverName fields).1) k s hp h1 hshape
    simpa [processEnvVarsRecursively] using h2

/-- Witness for C2 (amended): an explicitly-stdio descriptor with env entry
`K = $\x7bFOO\x7d` and `FOO` unset keeps the placeholder and records the
warning `(FOO, fs)`. -/
theorem claim2_witness :
    (∃ envFields2,
        jGet (fileEnvEntry envEmptyVars "fs" cfgStdioEnv).1 "env" = some (.obj envFields2) ∧
        jFieldsGet envFields2 "K"
          = some (.str (substIfTruthy envEmptyVars "$\x7bFOO\x7d"))) ∧
    ("FOO", "fs") ∈ (fileEnvEntry envEmptyVars "fs" cfgStdioEnv).2 := by
  have h := (claim2_interpolation envEmptyVars "fs" cfgStdioEnv).2.1
    (.cons "K" (.str "$\x7bFOO\x7d") .nil) "K" "$\x7bFOO\x7d" rfl rfl rfl rfl
  exact ⟨h.1, h.2 rfl⟩

/-- Counterexample for C2 as stated: a raw stdio descriptor with no explicit
`transport` field (validated as stdio, per `isStdioConnection`) holds the env
entry `K = $\x7bFOO\x7d` while `FOO` is set to `"x"`; the claim says the
placeholder is replaced by `"x"`, but `loadConfigFromFile` only interpolates
descriptors whose `transport` field is literally `"stdio"`, so the descriptor
passes through unchanged (and without a warning). -/
theorem claim2_counterexample :
    fileEnvEntry envFOO "fs" cfgNoTransport = (cfgNoTransport, []) ∧
    jPathGet cfgNoTransport ["env", "K"] = some (.str "$\x7bFOO\x7d") ∧
    isStdioConnection cfgNoTransport = true ∧
    envFOO "FOO" = some "x" ∧
    ("$\x7bFOO\x7d" : String) ≠ "x" :=
  ⟨rfl, rfl, rfl, rfl, by decide⟩

end MCP
